import Mathlib

/-!
Verification of the WebRTC signaling repository.

Server side: a shallow embedding of src/server/index.js. The room store
is the in-memory Map `rooms` (roomId to participant socket-id list); the
per-socket `socket.roomId` assignment together with socket.io room
membership is modelled by the `socketRoom` association list (the app puts
every socket in at most one application room), and the set of sockets
holding an open transport by `connected`. Every socket.io handler becomes
a pure function from server state to new state, callback response and the
list of (recipient, event) pairs it emits.
-/

namespace WebRTCProof

abbrev SocketId := String
abbrev RoomId := String

/-- Server state: `rooms` models the Map of src/server/index.js line 36,
`socketRoom` the socket.roomId tag plus socket.io room membership, and
`connected` the currently connected sockets. -/
structure ServerState where
  rooms : RoomId → Option (List SocketId)
  socketRoom : List (SocketId × RoomId)
  connected : List SocketId

def initServer : ServerState :=
  { rooms := fun _ => none, socketRoom := [], connected := [] }

/-- socket.roomId lookup. -/
def socketRoomOf (l : List (SocketId × RoomId)) (sid : SocketId) : Option RoomId :=
  (l.find? (fun p => p.1 = sid)).map (fun p => p.2)

/-- socket.join plus the socket.roomId assignment: the socket is tagged
with this room, replacing any previous tag. -/
def setSocketRoom (l : List (SocketId × RoomId)) (sid : SocketId) (rid : RoomId) :
    List (SocketId × RoomId) :=
  (sid, rid) :: l.filter (fun p => p.1 ≠ sid)

/-- The sockets currently in the socket.io room `rid`; broadcasts with
socket.to(rid) go to these minus the sending socket. -/
def ioRoomMembers (l : List (SocketId × RoomId)) (rid : RoomId) : List SocketId :=
  (l.filter (fun p => p.2 = rid)).map (fun p => p.1)

/-- Events broadcast by the server to clients. -/
inductive SEvent where
  | userJoined (userId : SocketId) (participantCount : Nat)
  | userLeft (userId : SocketId) (participantCount : Nat)
deriving Repr, DecidableEq

/-- Callback payload of the create-room handler. -/
structure CreateResp where
  success : Bool
  message : Option String := none
  roomId : Option RoomId := none
  participantCount : Option Nat := none
deriving Repr, DecidableEq

/-- create-room handler, src/server/index.js lines 45-59. -/
def createRoom (st : ServerState) (sid : SocketId) (rid : RoomId) :
    ServerState × CreateResp :=
  if (st.rooms rid).isSome then
    (st, { success := false, message := some ("Room already exists") })
  else
    ({ st with
        rooms := fun r => if r = rid then some [sid] else st.rooms r,
        socketRoom := setSocketRoom st.socketRoom sid rid },
     { success := true, roomId := some rid, participantCount := some 1 })

/-- Callback payload of the join-room handler. -/
structure JoinResp where
  success : Bool
  message : Option String := none
  roomId : Option RoomId := none
  participantCount : Option Nat := none
  existingParticipants : Option (List SocketId) := none
deriving Repr, DecidableEq

/-- join-room handler, src/server/index.js lines 65-92: pushes the caller
onto the participant list unconditionally, broadcasts user-joined to the
other members of the socket.io room, and answers with the updated count
and the participant list without the caller. -/
def joinRoom (st : ServerState) (sid : SocketId) (rid : RoomId) :
    ServerState × JoinResp × List (SocketId × SEvent) :=
  match st.rooms rid with
  | none => (st, { success := false, message := some ("Room does not exist") }, [])
  | some ps =>
      let ps2 := ps ++ [sid]
      let socketRoom2 := setSocketRoom st.socketRoom sid rid
      let st2 : ServerState :=
        { st with
            rooms := fun r => if r = rid then some ps2 else st.rooms r,
            socketRoom := socketRoom2 }
      let recipients := (ioRoomMembers socketRoom2 rid).filter (fun x => x ≠ sid)
      (st2,
       { success := true, roomId := some rid, participantCount := some ps2.length,
         existingParticipants := some (ps2.filter (fun x => x ≠ sid)) },
       recipients.map (fun r => (r, SEvent.userJoined sid ps2.length)))

/-- disconnect handler, src/server/index.js lines 144-165: socket.io drops
the socket from its rooms and from the connected set; if the socket was
tagged with an existing room, the socket is filtered out of the
participant list, user-left is broadcast to the remaining members, and
the room is deleted when it became empty. -/
def disconnect (st : ServerState) (sid : SocketId) :
    ServerState × List (SocketId × SEvent) :=
  let connected2 := st.connected.filter (fun x => x ≠ sid)
  let socketRoom2 := st.socketRoom.filter (fun p => p.1 ≠ sid)
  match socketRoomOf st.socketRoom sid with
  | some rid =>
      match st.rooms rid with
      | some ps =>
          let ps2 := ps.filter (fun x => x ≠ sid)
          let rooms2 : RoomId → Option (List SocketId) :=
            if ps2.length = 0 then
              fun r => if r = rid then none else st.rooms r
            else
              fun r => if r = rid then some ps2 else st.rooms r
          let recipients := (ioRoomMembers socketRoom2 rid).filter (fun x => x ≠ sid)
          ({ rooms := rooms2, socketRoom := socketRoom2, connected := connected2 },
           recipients.map (fun r => (r, SEvent.userLeft sid ps2.length)))
      | none => ({ st with socketRoom := socketRoom2, connected := connected2 }, [])
  | none => ({ st with socketRoom := socketRoom2, connected := connected2 }, [])

/-- Callback payload of the get-room-info handler. -/
structure InfoResp where
  success : Bool
  message : Option String := none
  roomId : Option RoomId := none
  participantCount : Option Nat := none
  participants : Option (List SocketId) := none
deriving Repr, DecidableEq

/-- get-room-info handler, src/server/index.js lines 171-184. -/
def getRoomInfo (st : ServerState) (rid : RoomId) : InfoResp :=
  match st.rooms rid with
  | none => { success := false, message := some ("Room not found") }
  | some ps =>
      { success := true, roomId := some rid, participantCount := some ps.length,
        participants := some ps }

/-- The offer / answer / ice-candidate relay handlers, src/server/index.js
lines 99-138: io.to(targetId).emit forwards the payload untouched, with
the sender id attached, to the target socket when it is connected (each
connected socket sits in the socket.io room named by its own id); when
the target is not connected nothing is delivered and nothing else
happens. The payload type is opaque to the server, hence a type
variable. -/
def relay {α : Type} (st : ServerState) (sender target : SocketId) (payload : α) :
    ServerState × List (SocketId × (α × SocketId)) :=
  (st, if target ∈ st.connected then [(target, (payload, sender))] else [])

/-- Server operations, used to quantify over every reachable server
state. -/
inductive SOp where
  | connectOp (sid : SocketId)
  | createOp (sid : SocketId) (rid : RoomId)
  | joinOp (sid : SocketId) (rid : RoomId)
  | discOp (sid : SocketId)
deriving Repr

def applySOp (st : ServerState) : SOp → ServerState
  | .connectOp sid => { st with connected := sid :: st.connected }
  | .createOp sid rid => (createRoom st sid rid).1
  | .joinOp sid rid => (joinRoom st sid rid).1
  | .discOp sid => (disconnect st sid).1

def runServer (ops : List SOp) : ServerState :=
  ops.foldl applySOp initServer

/-! Helper lemmas about the list operations the server uses. -/

lemma dedup_length_lt_of_not_nodup {l : List SocketId} (h : ¬ l.Nodup) :
    l.dedup.length < l.length := by
  rcases Nat.lt_or_ge l.dedup.length l.length with hlt | hge
  · exact hlt
  · exfalso
    have hsub := List.dedup_sublist l
    have hlen : l.dedup.length = l.length := le_antisymm hsub.length_le hge
    exact h (List.dedup_eq_self.mp (hsub.eq_of_length hlen))

lemma roomsNonempty_foldl : ∀ (ops : List SOp) (st : ServerState),
    (∀ r q, st.rooms r = some q → q ≠ []) →
    (∀ r q, (ops.foldl applySOp st).rooms r = some q → q ≠ []) := by
  intro ops
  induction ops with
  | nil => intro st hst; exact hst
  | cons op ops ih =>
    intro st hst
    refine ih (applySOp st op) ?_
    intro r q hq
    cases op with
    | connectOp sid => exact hst r q hq
    | createOp sid rid0 =>
      simp only [applySOp, createRoom] at hq
      by_cases hex : (st.rooms rid0).isSome
      · rw [if_pos hex] at hq
        exact hst r q hq
      · rw [if_neg hex] at hq
        simp only at hq
        by_cases he : r = rid0
        · rw [if_pos he] at hq
          cases hq
          simp
        · rw [if_neg he] at hq
          exact hst r q hq
    | joinOp sid rid0 =>
      simp only [applySOp, joinRoom] at hq
      cases hrm : st.rooms rid0 with
      | none =>
        rw [hrm] at hq
        exact hst r q hq
      | some ps0 =>
        rw [hrm] at hq
        simp only at hq
        by_cases he : r = rid0
        · rw [if_pos he] at hq
          cases hq
          simp
        · rw [if_neg he] at hq
          exact hst r q hq
    | discOp sid =>
      simp only [applySOp, disconnect] at hq
      cases hsr : socketRoomOf st.socketRoom sid with
      | none =>
        rw [hsr] at hq
        exact hst r q hq
      | some rid0 =>
        rw [hsr] at hq
        simp only at hq
        cases hrm : st.rooms rid0 with
        | none =>
          rw [hrm] at hq
          exact hst r q hq
        | some ps0 =>
          rw [hrm] at hq
          simp only at hq
          by_cases hz : (ps0.filter (fun x => x ≠ sid)).length = 0
          · rw [if_pos hz] at hq
            by_cases he : r = rid0
            · rw [if_pos he] at hq
              cases hq
            · rw [if_neg he] at hq
              exact hst r q hq
          · rw [if_neg hz] at hq
            by_cases he : r = rid0
            · rw [if_pos he] at hq
              cases hq
              intro hnil
              exact hz (by rw [hnil]; rfl)
            · rw [if_neg he] at hq
              exact hst r q hq

/-- Claim C7: every room present in the store has at least one
participant: create installs the creator as sole member, join only
appends, and disconnect deletes the room in the very step that removed
its last participant, so no reachable server state holds an empty
room. -/
theorem c7_rooms_never_empty (ops : List SOp) (rid : RoomId) (ps : List SocketId)
    (h : (runServer ops).rooms rid = some ps) : ps ≠ [] := by
  refine roomsNonempty_foldl ops initServer ?_ rid ps h
  intro r q hq
  simp [initServer] at hq

theorem c7_rooms_never_empty_witness :
    (runServer [SOp.createOp ("A") ("r1")]).rooms ("r1") = some [("A")] ∧
    (["A"] : List SocketId) ≠ [] :=
  ⟨rfl, c7_rooms_never_empty [SOp.createOp ("A") ("r1")] ("r1") [("A")] rfl⟩

/-- Claim C4: creating the same room twice succeeds the first time with
the caller as sole participant (count 1) and fails the second time with
the room-already-exists message, the second call leaving the store
untouched. -/
theorem c4_create_room_twice (st : ServerState) (rid : RoomId) (a b : SocketId)
    (h : st.rooms rid = none) :
    ((createRoom st a rid).2.success = true) ∧
    ((createRoom st a rid).2.participantCount = some 1) ∧
    ((createRoom st a rid).1.rooms rid = some [a]) ∧
    ((createRoom (createRoom st a rid).1 b rid).2.success = false) ∧
    ((createRoom (createRoom st a rid).1 b rid).2.message = some ("Room already exists")) ∧
    ((createRoom (createRoom st a rid).1 b rid).1 = (createRoom st a rid).1) := by
  simp [createRoom, h]

theorem c4_create_room_twice_witness :
    ((createRoom initServer ("A") ("r1")).2.success = true) ∧
    ((createRoom initServer ("A") ("r1")).2.participantCount = some 1) ∧
    ((createRoom initServer ("A") ("r1")).1.rooms ("r1") = some [("A")]) ∧
    ((createRoom (createRoom initServer ("A") ("r1")).1 ("B") ("r1")).2.success = false) ∧
    ((createRoom (createRoom initServer ("A") ("r1")).1 ("B") ("r1")).2.message
        = some ("Room already exists")) ∧
    ((createRoom (createRoom initServer ("A") ("r1")).1 ("B") ("r1")).1
        = (createRoom initServer ("A") ("r1")).1) :=
  c4_create_room_twice initServer ("r1") ("A") ("B") rfl

/-- Claim C8: the relay handlers forward the payload verbatim (the
payload type is a type variable, and the delivered value is literally the
argument) with the sender id attached; delivery happens exactly when the
target holds an open transport, otherwise the message is silently dropped
with no response and no state change. -/
theorem c8_relay_best_effort {α : Type} (st : ServerState) (sender target : SocketId)
    (payload : α) :
    ((relay st sender target payload).1 = st) ∧
    (∀ d ∈ (relay st sender target payload).2, d = (target, (payload, sender))) ∧
    ((relay st sender target payload).2 ≠ [] ↔ target ∈ st.connected) ∧
    (target ∉ st.connected → (relay st sender target payload).2 = []) ∧
    (target ∈ st.connected → (relay st sender target payload).2
        = [(target, (payload, sender))]) := by
  refine ⟨rfl, ?_, ?_, ?_, ?_⟩ <;>
    by_cases h : target ∈ st.connected <;> simp [relay, h]

theorem c8_relay_best_effort_witness :
    ((relay { initServer with connected := [("B")] } ("A") ("B") (42 : Nat)).2
        = [(("B"), ((42 : Nat), ("A")))]) ∧
    ((relay { initServer with connected := [("B")] } ("A") ("C") (42 : Nat)).2 = []) :=
  ⟨(c8_relay_best_effort { initServer with connected := [("B")] } ("A") ("B")
      (42 : Nat)).2.2.2.2 (by simp),
   (c8_relay_best_effort { initServer with connected := [("B")] } ("A") ("C")
      (42 : Nat)).2.2.2.1 (by simp)⟩

lemma ioRoomMembers_cons (p : SocketId × RoomId) (l : List (SocketId × RoomId))
    (rid : RoomId) :
    ioRoomMembers (p :: l) rid
      = if p.2 = rid then p.1 :: ioRoomMembers l rid else ioRoomMembers l rid := by
  by_cases h : p.2 = rid <;> simp [ioRoomMembers, List.filter_cons, h]

lemma ioRoomMembers_filter_ne (l : List (SocketId × RoomId)) (b : SocketId)
    (rid : RoomId) :
    ioRoomMembers (l.filter (fun p => p.1 ≠ b)) rid
      = (ioRoomMembers l rid).filter (fun x => x ≠ b) := by
  induction l with
  | nil => rfl
  | cons p l ih =>
    rw [List.filter_cons]
    by_cases h1 : p.1 = b
    · rw [if_neg (by simp [h1]), ih, ioRoomMembers_cons]
      by_cases h2 : p.2 = rid
      · rw [if_pos h2, List.filter_cons, if_neg (by simp [h1])]
      · rw [if_neg h2]
    · rw [if_pos (by simp [h1]), ioRoomMembers_cons, ioRoomMembers_cons]
      by_cases h2 : p.2 = rid
      · rw [if_pos h2, if_pos h2, List.filter_cons, if_pos (by simp [h1]), ih]
      · rw [if_neg h2, if_neg h2, ih]

lemma ioRoomMembers_setSocketRoom_self (l : List (SocketId × RoomId)) (b : SocketId)
    (rid : RoomId) :
    ioRoomMembers (setSocketRoom l b rid) rid
      = b :: (ioRoomMembers l rid).filter (fun x => x ≠ b) := by
  rw [setSocketRoom, ioRoomMembers_cons, if_pos rfl, ioRoomMembers_filter_ne]

lemma socketRoomOf_cons (p : SocketId × RoomId) (l : List (SocketId × RoomId))
    (a : SocketId) :
    socketRoomOf (p :: l) a
      = if p.1 = a then some p.2 else socketRoomOf l a := by
  by_cases h : p.1 = a <;>
    simp [socketRoomOf, List.find?_cons, h]

lemma socketRoomOf_filter_ne (l : List (SocketId × RoomId)) (a b : SocketId)
    (hab : a ≠ b) :
    socketRoomOf (l.filter (fun p => p.1 ≠ b)) a = socketRoomOf l a := by
  induction l with
  | nil => rfl
  | cons p l ih =>
    rw [List.filter_cons]
    by_cases h1 : p.1 = b
    · have hpa : ¬ p.1 = a := by
        rw [h1]
        exact fun hc => hab hc.symm
      rw [if_neg (by simp [h1]), ih, socketRoomOf_cons, if_neg hpa]
    · rw [if_pos (by simp [h1]), socketRoomOf_cons, socketRoomOf_cons, ih]

/-- Claim C5: joining a room whose sole member is A answers the joiner
with the prior membership list [A] and count 2, delivers exactly one
user-joined event, to A, carrying the joiner id and count 2; joining a
nonexistent room fails with the room-does-not-exist message and changes
nothing and notifies nobody. -/
theorem c5_join_existing_room (st : ServerState) (rid : RoomId) (a b : SocketId)
    (hroom : st.rooms rid = some [a])
    (hio : ioRoomMembers st.socketRoom rid = [a])
    (hab : a ≠ b) :
    ((joinRoom st b rid).2.1.success = true) ∧
    ((joinRoom st b rid).2.1.existingParticipants = some [a]) ∧
    ((joinRoom st b rid).2.1.participantCount = some 2) ∧
    ((joinRoom st b rid).2.2 = [(a, SEvent.userJoined b 2)]) ∧
    ((joinRoom st b rid).1.rooms rid = some [a, b]) ∧
    (∀ (st2 : ServerState) (rid2 : RoomId), st2.rooms rid2 = none →
       ((joinRoom st2 b rid2).1 = st2) ∧ ((joinRoom st2 b rid2).2.1.success = false) ∧
       ((joinRoom st2 b rid2).2.1.message = some ("Room does not exist")) ∧
       ((joinRoom st2 b rid2).2.2 = [])) := by
  have hrec : ((ioRoomMembers (setSocketRoom st.socketRoom b rid) rid).filter
      (fun x => x ≠ b)) = [a] := by
    rw [ioRoomMembers_setSocketRoom_self, List.filter_cons]
    simp [hio, hab]
  refine ⟨?_, ?_, ?_, ?_, ?_, ?_⟩
  · simp [joinRoom, hroom]
  · simp [joinRoom, hroom, hab]
  · simp [joinRoom, hroom]
  · simp only [joinRoom, hroom]
    simp only [hrec]
    simp
  · simp [joinRoom, hroom]
  · intro st2 rid2 h2
    refine ⟨?_, ?_, ?_, ?_⟩ <;> simp [joinRoom, h2]

/-- A concrete one-member server state used by the witnesses. -/
def stateA : ServerState :=
  { rooms := fun r => if r = ("r1") then some [("A")] else none,
    socketRoom := [(("A"), ("r1"))],
    connected := [("A")] }

theorem c5_join_existing_room_witness :
    ((joinRoom stateA ("B") ("r1")).2.1.existingParticipants = some [("A")]) ∧
    ((joinRoom stateA ("B") ("r1")).2.2 = [(("A"), SEvent.userJoined ("B") 2)]) := by
  have h := c5_join_existing_room stateA ("r1") ("A") ("B") (by simp [stateA])
    rfl (by decide)
  exact ⟨h.2.1, h.2.2.2.1⟩

/-- Claim C6: when one of two participants disconnects, the remaining one
receives exactly one user-left event with count 1 and the room survives
with the remaining member; when the sole participant then disconnects,
the room is deleted and get-room-info for it fails with the
room-not-found message. -/
theorem c6_disconnect_cleanup (st : ServerState) (rid : RoomId) (a b : SocketId)
    (hroom : st.rooms rid = some [a, b])
    (hio : ioRoomMembers st.socketRoom rid = [a, b])
    (hsa : socketRoomOf st.socketRoom a = some rid)
    (hsb : socketRoomOf st.socketRoom b = some rid)
    (hab : a ≠ b) :
    ((disconnect st b).2 = [(a, SEvent.userLeft b 1)]) ∧
    ((disconnect st b).1.rooms rid = some [a]) ∧
    ((disconnect (disconnect st b).1 a).1.rooms rid = none) ∧
    ((getRoomInfo (disconnect (disconnect st b).1 a).1 rid).success = false) ∧
    ((getRoomInfo (disconnect (disconnect st b).1 a).1 rid).message
        = some ("Room not found")) := by
  have hfil : ([a, b].filter (fun x => x ≠ b)) = [a] := by simp [hab]
  have hrec1 : ((ioRoomMembers (st.socketRoom.filter (fun p => p.1 ≠ b)) rid).filter
      (fun x => x ≠ b)) = [a] := by
    rw [ioRoomMembers_filter_ne]
    simp [hio, hab]
  have hd1 : disconnect st b
      = ({ rooms := fun r => if r = rid then some [a] else st.rooms r,
           socketRoom := st.socketRoom.filter (fun p => p.1 ≠ b),
           connected := st.connected.filter (fun x => x ≠ b) },
         [(a, SEvent.userLeft b 1)]) := by
    simp only [disconnect, hsb, hroom, hfil, hrec1]
    simp
  have hsa2 : socketRoomOf (st.socketRoom.filter (fun p => p.1 ≠ b)) a = some rid := by
    rw [socketRoomOf_filter_ne _ _ _ hab]
    exact hsa
  have hnone : (disconnect (disconnect st b).1 a).1.rooms rid = none := by
    rw [hd1]
    unfold disconnect
    dsimp only
    rw [hsa2]
    simp
  refine ⟨?_, ?_, hnone, ?_, ?_⟩
  · rw [hd1]
  · rw [hd1]
    simp
  · simp [getRoomInfo, hnone]
  · simp [getRoomInfo, hnone]

/-- A concrete two-member server state used by the witnesses. -/
def stateAB : ServerState :=
  { rooms := fun r => if r = ("r1") then some [("A"), ("B")] else none,
    socketRoom := [(("A"), ("r1")), (("B"), ("r1"))],
    connected := [("A"), ("B")] }

theorem c6_disconnect_cleanup_witness :
    ((disconnect stateAB ("B")).2 = [(("A"), SEvent.userLeft ("B") 1)]) ∧
    ((getRoomInfo (disconnect (disconnect stateAB ("B")).1 ("A")).1
        ("r1")).success = false) := by
  have h := c6_disconnect_cleanup stateAB ("r1") ("A") ("B") (by simp [stateAB])
    rfl rfl rfl (by decide)
  exact ⟨h.1, h.2.2.2.1⟩

/-- Claim C10: join performs no membership check: it unconditionally
appends the caller, so a caller already in the list gains a duplicate
entry and the returned and broadcast participant count strictly exceeds
the number of distinct participants. -/
theorem c10_join_duplicates (st : ServerState) (rid : RoomId) (a : SocketId)
    (ps : List SocketId) (hroom : st.rooms rid = some ps) (hmem : a ∈ ps) :
    ((joinRoom st a rid).2.1.success = true) ∧
    ((joinRoom st a rid).1.rooms rid = some (ps ++ [a])) ∧
    (2 ≤ (ps ++ [a]).count a) ∧
    ((joinRoom st a rid).2.1.participantCount = some (ps.length + 1)) ∧
    ((ps ++ [a]).dedup.length < (ps ++ [a]).length) ∧
    (∀ e ∈ (joinRoom st a rid).2.2, e.2 = SEvent.userJoined a (ps.length + 1)) := by
  have hcount : 2 ≤ (ps ++ [a]).count a := by
    rw [List.count_append]
    have h1 : 0 < ps.count a := List.count_pos_iff.mpr hmem
    have h2 : List.count a [a] = 1 := by simp
    omega
  have hnodup : ¬ (ps ++ [a]).Nodup := by
    intro hn
    rcases List.nodup_append.mp hn with ⟨_, _, hdisj⟩
    exact hdisj hmem (by simp)
  refine ⟨?_, ?_, hcount, ?_, dedup_length_lt_of_not_nodup hnodup, ?_⟩
  · simp [joinRoom, hroom]
  · simp [joinRoom, hroom]
  · simp [joinRoom, hroom]
  · intro e he
    simp only [joinRoom, hroom, List.mem_map] at he
    obtain ⟨x, hx, hxe⟩ := he
    rw [← hxe]
    simp

theorem c10_join_duplicates_witness :
    (((joinRoom { initServer with
        rooms := fun r => if r = ("r1") then some [("A")] else none }
        ("A") ("r1")).2.1.participantCount = some 2) ∧
     ((joinRoom { initServer with
        rooms := fun r => if r = ("r1") then some [("A")] else none }
        ("A") ("r1")).1.rooms ("r1") = some [("A"), ("A")]) ∧
     ((["A", "A"] : List SocketId).dedup.length < 2)) := by
  have h := c10_join_duplicates { initServer with
      rooms := fun r => if r = ("r1") then some [("A")] else none }
      ("r1") ("A") [("A")] (by simp) (by simp)
  exact ⟨h.2.2.2.1, h.2.1, h.2.2.2.2.1⟩

/-!
Client side: a shallow embedding of the Session Coordinator in
src/client/src/App.jsx together with the screen / canvas streaming
component (WebRTCStream) and the track-replacement helper of
src/client/src/utils/webrtc.js. Media tracks live in a registry keyed by
a fresh numeric id (acquiring media mints new ids); a stream is the list
of its track ids; an RTCPeerConnection is a record of its sender slots
(each holding the id of its current outbound track), its description and
candidate bookkeeping and a closed flag. peerConnectionRef is `current`;
every connection the ref drops (closed by cleanup, or overwritten live
when initiateCall resumes from awaiting media) is moved to `graveyard`
so that every connection ever created stays observable.
-/

/-- Kind of a media track. -/
inductive TrackKind where
  | audio
  | video
deriving Repr, DecidableEq

/-- Registry entry for one acquired capture track. -/
structure TrackInfo where
  kind : TrackKind
  stopped : Bool
deriving Repr, DecidableEq

/-- Model of one RTCPeerConnection: sender slots hold the id of the
outbound track currently attached (pc.addTrack appends a slot,
sender.replaceTrack swaps the id in place); localSet / remoteSet record
whether the local / remote description has been set; applied is the list
of ICE candidates passed successfully to addIceCandidate, in order. -/
structure PC where
  id : Nat
  senders : List (Option Nat) := []
  localSet : Bool := false
  remoteSet : Bool := false
  applied : List Nat := []
  closed : Bool := false
deriving Repr, DecidableEq

/-- Client-side coordinator state. `initiatePending` records that
initiateCall is suspended at its await of startCall (getUserMedia in
flight); `raced` records that initiateCall, on resuming from that await,
found a connection already installed and overwrote it without closing it
(the offer-during-await interleaving). A connection dropped by cleanup is
moved to `graveyard` closed; a connection overwritten live by the
initiateCall resume is moved there still open. -/
structure AppState where
  tracks : List (Nat × TrackInfo) := []
  nextTrackId : Nat := 0
  localStream : Option (List Nat) := none
  screenStream : Option (List Nat) := none
  canvasStream : Option (List Nat) := none
  current : Option PC := none
  graveyard : List PC := []
  nextPcId : Nat := 0
  dataChannel : Bool := false
  initiatePending : Bool := false
  raced : Bool := false
deriving Repr, DecidableEq

def initApp : AppState := {}

/-- Track kind lookup in the registry. -/
def kindOf (tracks : List (Nat × TrackInfo)) (tid : Nat) : Option TrackKind :=
  (tracks.find? (fun p => p.1 = tid)).map (fun p => p.2.kind)

/-- The sender.track?.kind === video test of webrtc.js line 152 and
WebRTCStream. -/
def isVideoSender (tracks : List (Nat × TrackInfo)) (s : Option Nat) : Bool :=
  match s with
  | some tid => kindOf tracks tid = some TrackKind.video
  | none => false

/-- videoSender.replaceTrack(newTrack): the first sender whose track is a
video track gets the new track id, in place. -/
def replaceFirstVideo (tracks : List (Nat × TrackInfo)) :
    List (Option Nat) → Nat → List (Option Nat)
  | [], _ => []
  | s :: rest, tid =>
      if isVideoSender tracks s then some tid :: rest
      else s :: replaceFirstVideo tracks rest tid

/-- replaceVideoTrack of src/client/src/utils/webrtc.js lines 150-160:
find the video sender among pc.getSenders(); replace its track when
found, otherwise report no-video-sender failure. -/
def replaceVideoTrack (tracks : List (Nat × TrackInfo)) (pc : PC) (tid : Nat) :
    PC × Bool :=
  if pc.senders.any (isVideoSender tracks) then
    ({ pc with senders := replaceFirstVideo tracks pc.senders tid }, true)
  else
    (pc, false)

/-- The sender-update logic of WebRTCStream.startScreenShare lines
1188-1201 and startCanvasStream lines 1316-1331 of the client bundle:
replace the existing video sender in place, or addTrack when there is
none. -/
def replaceOrAddVideo (tracks : List (Nat × TrackInfo)) (senders : List (Option Nat))
    (tid : Nat) : List (Option Nat) :=
  if senders.any (isVideoSender tracks) then replaceFirstVideo tracks senders tid
  else senders ++ [some tid]

/-- Coordinator events. recvOffer / recvAnswer / recvCandidate are the
socket handlers of App.jsx lines 96-153; initiate is the initiateCall
click (the buttons are rendered only while no peer connection exists,
App.jsx line 697) and mediaResolved is the later resolution of the
getUserMedia promise that initiateCall awaits inside startCall — other
events may interleave between the two; screenShare / canvasShare are the
WebRTCStream start buttons; endCall, leaveRoom and the user-left handler
close things down. -/
inductive CEvent where
  | startCallEv
  | initiate
  | mediaResolved
  | recvOffer
  | recvAnswer
  | recvCandidate (c : Nat)
  | screenShareEv
  | canvasShareEv
  | endCallEv
  | leaveRoomEv
  | userLeftEv
deriving Repr, DecidableEq

/-- getUserMedia in video mode: mints one audio and one video capture
track and stores the stream in localStreamRef (App.jsx startCall lines
191-251). -/
def acquireUserMedia (st : AppState) : AppState :=
  let aId := st.nextTrackId
  let vId := st.nextTrackId + 1
  { st with
      tracks := st.tracks ++ [(aId, TrackInfo.mk TrackKind.audio false),
        (vId, TrackInfo.mk TrackKind.video false)],
      nextTrackId := st.nextTrackId + 2,
      localStream := some [aId, vId] }

/-- startCall: acquire the local stream, then addMediaTracks on the
existing peer connection if there is one (App.jsx lines 242-245). -/
def startCallStep (st : AppState) : AppState :=
  let st1 := acquireUserMedia st
  match st1.current with
  | some pc =>
      { st1 with current := some { pc with
          senders := pc.senders ++ (st1.localStream.getD []).map some } }
  | none => st1

/-- createPeerConnection (App.jsx lines 268-325): a fresh connection;
local tracks are added immediately when a local stream exists. -/
def createPCStep (st : AppState) : AppState × PC :=
  let pc : PC := { id := st.nextPcId,
                   senders := (st.localStream.getD []).map some }
  ({ st with nextPcId := st.nextPcId + 1 }, pc)

/-- The offer handler (App.jsx lines 96-127): reuse the existing peer
connection when there is one, otherwise create one; then
setRemoteDescription, createAnswer, setLocalDescription on it. -/
def recvOfferStep (st : AppState) : AppState :=
  match st.current with
  | some pc =>
      { st with current := some { pc with remoteSet := true, localSet := true } }
  | none =>
      let (st1, pc) := createPCStep st
      { st1 with current := some { pc with remoteSet := true, localSet := true } }

/-- The initiateCall click (App.jsx lines 406-437). The call buttons are
rendered only while no peer connection exists (line 697), so at the
moment of the click the ref is empty; initiateCall itself checks
nothing. With a local stream already present there is no await before
the connection is created, so click, createPeerConnection, ref
assignment, data channel and local offer are one synchronous step.
Without one, initiateCall first awaits startCall (getUserMedia): only
the pending flag is set here and the rest happens at mediaResolved,
with arbitrary events interleaved in between. -/
def initiateStep (st : AppState) : AppState :=
  if st.current.isSome then st
  else if st.localStream.isSome then
    let (st2, pc) := createPCStep st
    { st2 with current := some { pc with localSet := true }, dataChannel := true }
  else
    { st with initiatePending := true }

/-- Resolution of the getUserMedia promise initiateCall is awaiting.
startCall resumes first: it stores the stream in localStreamRef and adds
its tracks to peerConnectionRef.current if one appeared meanwhile
(App.jsx lines 242-245). Then initiateCall resumes (lines 418-420): it
creates a fresh connection and assigns peerConnectionRef.current
unconditionally — a connection installed during the await (by the offer
handler) is overwritten without being closed; `raced` records that. -/
def mediaResolvedStep (st : AppState) : AppState :=
  if st.initiatePending then
    let st1 := acquireUserMedia st
    let st2 :=
      match st1.current with
      | some pc =>
          { st1 with current := some { pc with
              senders := pc.senders ++ (st1.localStream.getD []).map some } }
      | none => st1
    let (st3, pc) := createPCStep st2
    match st3.current with
    | some old =>
        { st3 with
            current := some { pc with localSet := true },
            dataChannel := true,
            graveyard := old :: st3.graveyard,
            initiatePending := false,
            raced := true }
    | none =>
        { st3 with
            current := some { pc with localSet := true },
            dataChannel := true,
            initiatePending := false }
  else st

/-- The answer handler (App.jsx lines 129-140): setRemoteDescription on
the existing connection, if any. -/
def recvAnswerStep (st : AppState) : AppState :=
  match st.current with
  | some pc => { st with current := some { pc with remoteSet := true } }
  | none => st

/-- The ice-candidate handler (App.jsx lines 142-153): when a peer
connection exists the candidate goes straight to addIceCandidate — with
the remote description set it is applied at once; without it the add
throws and the catch block only logs, discarding the candidate. With no
peer connection the candidate is ignored. There is no queue. -/
def recvCandidateStep (st : AppState) (c : Nat) : AppState :=
  match st.current with
  | some pc =>
      if pc.remoteSet then
        { st with current := some { pc with applied := pc.applied ++ [c] } }
      else st
  | none => st

/-- startScreenShare (client bundle lines 1155-1218): mint a display
capture track, keep it in screenStreamRef, and layer it onto the
connection via replace-or-add. -/
def screenShareStep (st : AppState) : AppState :=
  let tId := st.nextTrackId
  let st1 := { st with
      tracks := st.tracks ++ [(tId, TrackInfo.mk TrackKind.video false)],
      nextTrackId := st.nextTrackId + 1,
      screenStream := some [tId] }
  match st1.current with
  | some pc =>
      { st1 with current := some { pc with
          senders := replaceOrAddVideo st1.tracks pc.senders tId } }
  | none => st1

/-- startCanvasStream (client bundle lines 1237-1332): same shape as
screen share with the canvas capture stream. -/
def canvasShareStep (st : AppState) : AppState :=
  let tId := st.nextTrackId
  let st1 := { st with
      tracks := st.tracks ++ [(tId, TrackInfo.mk TrackKind.video false)],
      nextTrackId := st.nextTrackId + 1,
      canvasStream := some [tId] }
  match st1.current with
  | some pc =>
      { st1 with current := some { pc with
          senders := replaceOrAddVideo st1.tracks pc.senders tId } }
  | none => st1

/-- cleanup (App.jsx lines 511-528): close the data channel and the peer
connection, null the refs. -/
def cleanupStep (st : AppState) : AppState :=
  let st1 := { st with dataChannel := false }
  match st1.current with
  | some pc =>
      { st1 with current := none, graveyard := { pc with closed := true } :: st1.graveyard }
  | none => st1

/-- track.stop() on every listed track. -/
def stopTracks (tracks : List (Nat × TrackInfo)) (ids : List Nat) :
    List (Nat × TrackInfo) :=
  tracks.map (fun p => if p.1 ∈ ids then (p.1, { p.2 with stopped := true }) else p)

/-- endCall (App.jsx lines 469-485): stop every track of the local
stream, drop the stream reference, then cleanup. The screen and canvas
capture streams of the WebRTCStream component are not touched. -/
def endCallStep (st : AppState) : AppState :=
  let st1 :=
    match st.localStream with
    | some ids => { st with tracks := stopTracks st.tracks ids, localStream := none }
    | none => st
  cleanupStep st1

/-- leaveRoom (App.jsx lines 533-538) calls endCall; the room and message
state it also clears is presentation-layer only. -/
def leaveRoomStep (st : AppState) : AppState :=
  endCallStep st

def step (st : AppState) : CEvent → AppState
  | .startCallEv => startCallStep st
  | .initiate => initiateStep st
  | .mediaResolved => mediaResolvedStep st
  | .recvOffer => recvOfferStep st
  | .recvAnswer => recvAnswerStep st
  | .recvCandidate c => recvCandidateStep st c
  | .screenShareEv => screenShareStep st
  | .canvasShareEv => canvasShareStep st
  | .endCallEv => endCallStep st
  | .leaveRoomEv => leaveRoomStep st
  | .userLeftEv => cleanupStep st

def runC (es : List CEvent) : AppState :=
  es.foldl step initApp

/-- Number of peer connections that were created and never closed. -/
def openPCs (st : AppState) : Nat :=
  (st.graveyard.filter (fun pc => !pc.closed)).length
    + (match st.current with
       | some pc => if pc.closed then 0 else 1
       | none => 0)

/-- Number of outbound video senders on a sender list. -/
def countVideoSenders (tracks : List (Nat × TrackInfo))
    (senders : List (Option Nat)) : Nat :=
  (senders.filter (isVideoSender tracks)).length

/-- Every registry id is below the next fresh id. -/
def tracksFresh (tracks : List (Nat × TrackInfo)) (n : Nat) : Bool :=
  tracks.all (fun p => p.1 < n)

/-- Every sender slot refers to an id below the next fresh id. -/
def sendersFresh (senders : List (Option Nat)) (n : Nat) : Bool :=
  senders.all (fun s =>
    match s with
    | some tid => tid < n
    | none => true)

def currentSendersLen (st : AppState) : Option Nat :=
  st.current.map (fun pc => pc.senders.length)

def currentVideoCount (st : AppState) : Option Nat :=
  st.current.map (fun pc => countVideoSenders st.tracks pc.senders)

def currentId (st : AppState) : Option Nat :=
  st.current.map PC.id

/-- All capture tracks ever acquired are stopped. -/
def allCaptureStopped (st : AppState) : Bool :=
  st.tracks.all (fun p => p.2.stopped)

/-! Helper lemmas for the client model. -/

lemma graveClosed_step (st : AppState) (e : CEvent)
    (h : st.raced = false → ∀ pc ∈ st.graveyard, pc.closed = true) :
    (step st e).raced = false → ∀ pc ∈ (step st e).graveyard, pc.closed = true := by
  obtain ⟨tr, nt, ls, ss, cs, cur, gr, np, dc, ip, rc⟩ := st
  cases e with
  | startCallEv => cases cur <;> exact h
  | initiate => cases cur <;> cases ls <;> exact h
  | mediaResolved =>
    cases ip with
    | false => exact h
    | true =>
      cases cur with
      | none => exact h
      | some pc =>
        intro hr
        exact Bool.noConfusion hr
  | recvOffer => cases cur <;> exact h
  | recvAnswer => cases cur <;> exact h
  | recvCandidate c =>
    cases cur with
    | none => exact h
    | some pc =>
      obtain ⟨pid, snd, lset, rset, app, cl⟩ := pc
      cases rset <;> exact h
  | screenShareEv => cases cur <;> exact h
  | canvasShareEv => cases cur <;> exact h
  | endCallEv =>
    cases ls <;> cases cur <;>
      first
      | exact h
      | · intro hr q hq
          rcases List.mem_cons.mp hq with h1 | h2
          · rw [h1]
          · exact h hr q h2
  | leaveRoomEv =>
    cases ls <;> cases cur <;>
      first
      | exact h
      | · intro hr q hq
          rcases List.mem_cons.mp hq with h1 | h2
          · rw [h1]
          · exact h hr q h2
  | userLeftEv =>
    cases cur with
    | none => exact h
    | some pc =>
      intro hr q hq
      rcases List.mem_cons.mp hq with h1 | h2
      · rw [h1]
      · exact h hr q h2

lemma graveClosed_runC (es : List CEvent) :
    (runC es).raced = false → ∀ pc ∈ (runC es).graveyard, pc.closed = true := by
  suffices hgen : ∀ st : AppState,
      (st.raced = false → ∀ pc ∈ st.graveyard, pc.closed = true) →
      ((es.foldl step st).raced = false →
        ∀ pc ∈ (es.foldl step st).graveyard, pc.closed = true) by
    refine hgen initApp ?_
    intro _ pc hpc
    simp [initApp] at hpc
  induction es with
  | nil => intro st h; exact h
  | cons e es ih =>
    intro st h
    exact ih (step st e) (graveClosed_step st e h)

lemma openPCs_le_one (es : List CEvent) (hr : (runC es).raced = false) :
    openPCs (runC es) ≤ 1 := by
  have h := graveClosed_runC es hr
  unfold openPCs
  have hfil : (runC es).graveyard.filter (fun pc => !pc.closed) = [] := by
    rw [List.filter_eq_nil_iff]
    intro pc hpc
    simp [h pc hpc]
  rw [hfil]
  cases hc : (runC es).current with
  | none => simp
  | some pc => cases hcl : pc.closed <;> simp [hcl]

/-- Claim C2 (counterexample): when the initiateCall click happens with
no local stream, initiateCall awaits getUserMedia; an offer arriving
during that await installs a connection, and the resumed initiateCall
then creates a second connection and overwrites the first without
closing it — two open peer connections exist at once, refuting the
at-most-one invariant. -/
theorem c2_counterexample :
    (openPCs (runC [CEvent.initiate, CEvent.recvOffer, CEvent.mediaResolved]) = 2) ∧
    ¬ (openPCs (runC [CEvent.initiate, CEvent.recvOffer, CEvent.mediaResolved]) ≤ 1) := by
  constructor
  · decide
  · decide

/-- Claim C2 (amended): an incoming offer while a peer connection exists
is always handled on that same connection — its descriptions are updated
in place, nothing is constructed and nothing is closed. The at-most-one
open connection invariant, however, holds only on executions in which
initiateCall never resumes from its media await with a connection
already installed (`raced = false`); in the offer-during-await
interleaving initiateCall overwrites the installed connection without
closing it and two open connections exist. -/
theorem c2_offer_renegotiates_in_place (es : List CEvent) :
    ((runC es).raced = false → openPCs (runC es) ≤ 1) ∧
    (∀ pc : PC, (runC es).current = some pc →
       ((recvOfferStep (runC es)).current
          = some { pc with remoteSet := true, localSet := true }) ∧
       ((recvOfferStep (runC es)).nextPcId = (runC es).nextPcId) ∧
       ((recvOfferStep (runC es)).graveyard = (runC es).graveyard)) := by
  refine ⟨openPCs_le_one es, ?_⟩
  intro pc hpc
  refine ⟨?_, ?_, ?_⟩ <;> simp [recvOfferStep, hpc]

theorem c2_offer_renegotiates_in_place_witness :
    (openPCs (runC [CEvent.initiate, CEvent.mediaResolved]) ≤ 1) ∧
    ((recvOfferStep (runC [CEvent.initiate, CEvent.mediaResolved])).current
       = some ⟨0, [some 0, some 1], true, true, [], false⟩) ∧
    ((recvOfferStep (runC [CEvent.initiate, CEvent.mediaResolved])).nextPcId = 1) := by
  have h := c2_offer_renegotiates_in_place [CEvent.initiate, CEvent.mediaResolved]
  have h2 := h.2 ⟨0, [some 0, some 1], true, false, [], false⟩ (by decide)
  exact ⟨h.1 (by decide), h2.1, h2.2.1⟩

/-- Claim C1 (counterexample): a candidate relayed after the local offer
but before the remote answer is neither queued nor applied once
setRemoteDescription resolves — after the answer lands the applied list
is empty, not the queued-then-flushed [5] the claim requires. -/
theorem c1_counterexample :
    ((runC [CEvent.initiate, CEvent.mediaResolved, CEvent.recvCandidate 5, CEvent.recvAnswer]).current.map
        PC.applied = some []) ∧
    ((runC [CEvent.initiate, CEvent.mediaResolved, CEvent.recvCandidate 5, CEvent.recvAnswer]).current.map
        PC.applied ≠ some [5]) := by
  constructor
  · decide
  · decide

/-- Claim C1 (amended): the ice-candidate handler never queues. With no
peer connection the candidate is ignored; with a connection whose remote
description is not yet set, addIceCandidate fails, the error is only
logged and the candidate is discarded, leaving the state unchanged; with
the remote description set the candidate is applied immediately and
appended at the end, so the candidates that do get applied appear in
arrival order. -/
theorem c1_no_queue_immediate_apply (st : AppState) (c : Nat) :
    (st.current = none → recvCandidateStep st c = st) ∧
    (∀ pc : PC, st.current = some pc →
       (pc.remoteSet = false → recvCandidateStep st c = st) ∧
       (pc.remoteSet = true →
          recvCandidateStep st c
            = { st with current := some { pc with applied := pc.applied ++ [c] } })) := by
  constructor
  · intro h
    simp [recvCandidateStep, h]
  · intro pc hpc
    constructor
    · intro hr
      simp [recvCandidateStep, hpc, hr]
    · intro hr
      simp [recvCandidateStep, hpc, hr]

theorem c1_no_queue_immediate_apply_witness :
    recvCandidateStep (runC [CEvent.initiate, CEvent.mediaResolved, CEvent.recvAnswer]) 7
      = { runC [CEvent.initiate, CEvent.mediaResolved, CEvent.recvAnswer] with
          current := some ⟨0, [some 0, some 1], true, true, [7], false⟩ } := by
  have h := (c1_no_queue_immediate_apply (runC [CEvent.initiate, CEvent.mediaResolved, CEvent.recvAnswer]) 7).2
    ⟨0, [some 0, some 1], true, true, [], false⟩ (by decide)
  exact h.2 rfl

lemma tracksFresh_iff (tracks : List (Nat × TrackInfo)) (n : Nat) :
    tracksFresh tracks n = true ↔ ∀ p ∈ tracks, p.1 < n := by
  unfold tracksFresh
  rw [List.all_eq_true]
  constructor <;> intro h p hp <;> simpa using h p hp

lemma sendersFresh_iff (senders : List (Option Nat)) (n : Nat) :
    sendersFresh senders n = true ↔ ∀ tid, some tid ∈ senders → tid < n := by
  unfold sendersFresh
  rw [List.all_eq_true]
  constructor
  · intro h tid htid
    simpa using h _ htid
  · intro h s hs
    cases s with
    | none => rfl
    | some tid => simpa using h tid hs

lemma kindOf_append_ne (tracks : List (Nat × TrackInfo)) (n x : Nat) (i : TrackInfo)
    (hx : x ≠ n) :
    kindOf (tracks ++ [(n, i)]) x = kindOf tracks x := by
  induction tracks with
  | nil =>
    unfold kindOf
    rw [List.nil_append, List.find?_cons_of_neg _ (by simp [Ne.symm hx])]
  | cons p l ih =>
    unfold kindOf at ih ⊢
    by_cases hp : p.1 = x
    · rw [List.cons_append, List.find?_cons_of_pos _ (by simp [hp]),
        List.find?_cons_of_pos _ (by simp [hp])]
    · rw [List.cons_append, List.find?_cons_of_neg _ (by simp [hp]),
        List.find?_cons_of_neg _ (by simp [hp])]
      exact ih

lemma kindOf_append_self (tracks : List (Nat × TrackInfo)) (n : Nat) (i : TrackInfo)
    (h : tracksFresh tracks n = true) :
    kindOf (tracks ++ [(n, i)]) n = some i.kind := by
  induction tracks with
  | nil =>
    unfold kindOf
    rw [List.nil_append, List.find?_cons_of_pos _ (by simp)]
    rfl
  | cons p l ih =>
    have hp : p.1 < n := (tracksFresh_iff _ _).mp h p (by simp)
    have hl : tracksFresh l n = true := by
      rw [tracksFresh_iff]
      intro q hq
      exact (tracksFresh_iff _ _).mp h q (by simp [hq])
    unfold kindOf at ih ⊢
    rw [List.cons_append, List.find?_cons_of_neg _ (by simp; omega)]
    exact ih hl

lemma countVideo_append_fresh (tracks : List (Nat × TrackInfo))
    (senders : List (Option Nat)) (n : Nat) (i : TrackInfo)
    (hsn : sendersFresh senders n = true) :
    countVideoSenders (tracks ++ [(n, i)]) senders
      = countVideoSenders tracks senders := by
  unfold countVideoSenders
  have hcong : senders.filter (isVideoSender (tracks ++ [(n, i)]))
      = senders.filter (isVideoSender tracks) := by
    apply List.filter_congr
    intro s hs
    cases s with
    | none => rfl
    | some tid =>
      have htid : tid < n := (sendersFresh_iff _ _).mp hsn tid hs
      show decide (kindOf (tracks ++ [(n, i)]) tid = some TrackKind.video)
          = decide (kindOf tracks tid = some TrackKind.video)
      rw [kindOf_append_ne _ _ _ _ (Nat.ne_of_lt htid)]
  rw [hcong]

lemma any_of_countVideo_pos (tracks : List (Nat × TrackInfo))
    (senders : List (Option Nat)) (h : 0 < countVideoSenders tracks senders) :
    senders.any (isVideoSender tracks) = true := by
  unfold countVideoSenders at h
  rw [List.any_eq_true]
  have hne : senders.filter (isVideoSender tracks) ≠ [] := by
    intro hnil
    rw [hnil] at h
    simp at h
  rcases List.exists_mem_of_ne_nil _ hne with ⟨s, hs⟩
  exact ⟨s, (List.mem_filter.mp hs).1, (List.mem_filter.mp hs).2⟩

lemma replaceFirstVideo_length (tracks : List (Nat × TrackInfo))
    (senders : List (Option Nat)) (tid : Nat) :
    (replaceFirstVideo tracks senders tid).length = senders.length := by
  induction senders with
  | nil => rfl
  | cons s rest ih =>
    by_cases h : isVideoSender tracks s = true
    · simp [replaceFirstVideo, h]
    · simp [replaceFirstVideo, h, ih]

lemma countVideo_replaceFirstVideo (tracks : List (Nat × TrackInfo))
    (senders : List (Option Nat)) (tid : Nat)
    (hvid : isVideoSender tracks (some tid) = true) :
    countVideoSenders tracks (replaceFirstVideo tracks senders tid)
      = countVideoSenders tracks senders := by
  induction senders with
  | nil => rfl
  | cons s rest ih =>
    by_cases h : isVideoSender tracks s = true
    · unfold countVideoSenders
      simp [replaceFirstVideo, h, List.filter_cons, hvid]
    · unfold countVideoSenders at ih ⊢
      simp [replaceFirstVideo, h, List.filter_cons, ih]

lemma mem_replaceFirstVideo (tracks : List (Nat × TrackInfo))
    (senders : List (Option Nat)) (tid : Nat) :
    ∀ s ∈ replaceFirstVideo tracks senders tid, s = some tid ∨ s ∈ senders := by
  induction senders with
  | nil =>
    intro s hs
    simp [replaceFirstVideo] at hs
  | cons a rest ih =>
    intro s hs
    by_cases hv : isVideoSender tracks a = true
    · have hrw : replaceFirstVideo tracks (a :: rest) tid = some tid :: rest := by
        simp [replaceFirstVideo, hv]
      rw [hrw] at hs
      rcases List.mem_cons.mp hs with h1 | h2
      · exact Or.inl h1
      · exact Or.inr (List.mem_cons_of_mem _ h2)
    · have hrw : replaceFirstVideo tracks (a :: rest) tid
          = a :: replaceFirstVideo tracks rest tid := by
        simp [replaceFirstVideo, hv]
      rw [hrw] at hs
      rcases List.mem_cons.mp hs with h1 | h2
      · exact Or.inr (by simp [h1])
      · rcases ih s h2 with h3 | h4
        · exact Or.inl h3
        · exact Or.inr (List.mem_cons_of_mem _ h4)

lemma sendersFresh_replaceFirstVideo (tracks : List (Nat × TrackInfo))
    (senders : List (Option Nat)) (tid n : Nat)
    (h : sendersFresh senders n = true) (htid : tid < n) :
    sendersFresh (replaceFirstVideo tracks senders tid) n = true := by
  rw [sendersFresh_iff] at h ⊢
  intro x hx
  rcases mem_replaceFirstVideo tracks senders tid _ hx with h1 | h2
  · cases Option.some.inj h1
    exact htid
  · exact h x h2

lemma sendersFresh_mono (senders : List (Option Nat)) (n m : Nat) (hnm : n ≤ m)
    (h : sendersFresh senders n = true) : sendersFresh senders m = true := by
  rw [sendersFresh_iff] at h ⊢
  intro x hx
  exact lt_of_lt_of_le (h x hx) hnm

lemma tracksFresh_append_fresh (tracks : List (Nat × TrackInfo)) (n : Nat)
    (i : TrackInfo) (h : tracksFresh tracks n = true) :
    tracksFresh (tracks ++ [(n, i)]) (n + 1) = true := by
  rw [tracksFresh_iff] at h ⊢
  intro p hp
  rcases List.mem_append.mp hp with h1 | h2
  · exact Nat.lt_succ_of_lt (h p h1)
  · simp at h2
    rw [h2]
    exact Nat.lt_succ_self n

lemma screenShareStep_spec (st : AppState) (pc : PC)
    (hcur : st.current = some pc)
    (hsn : sendersFresh pc.senders st.nextTrackId = true)
    (hcount : countVideoSenders st.tracks pc.senders = 1) :
    ((screenShareStep st).current = some { pc with senders := replaceFirstVideo (st.tracks ++ [(st.nextTrackId, TrackInfo.mk TrackKind.video false)]) pc.senders st.nextTrackId }) ∧
    ((screenShareStep st).tracks
        = st.tracks ++ [(st.nextTrackId, TrackInfo.mk TrackKind.video false)]) ∧
    ((screenShareStep st).nextTrackId = st.nextTrackId + 1) ∧
    ((screenShareStep st).nextPcId = st.nextPcId) ∧
    ((screenShareStep st).graveyard = st.graveyard) := by
  have hany : pc.senders.any (isVideoSender
      (st.tracks ++ [(st.nextTrackId, TrackInfo.mk TrackKind.video false)])) = true := by
    apply any_of_countVideo_pos
    rw [countVideo_append_fresh _ _ _ _ hsn, hcount]
    exact Nat.one_pos
  refine ⟨?_, ?_, ?_, ?_, ?_⟩ <;>
    simp [screenShareStep, hcur, replaceOrAddVideo, hany]

lemma screenShare_full_spec (st : AppState) (pc : PC)
    (hcur : st.current = some pc)
    (htr : tracksFresh st.tracks st.nextTrackId = true)
    (hsn : sendersFresh pc.senders st.nextTrackId = true)
    (hcount : countVideoSenders st.tracks pc.senders = 1) :
    ∃ pc2 : PC,
      (screenShareStep st).current = some pc2 ∧
      pc2.id = pc.id ∧
      pc2.senders.length = pc.senders.length ∧
      countVideoSenders (screenShareStep st).tracks pc2.senders = 1 ∧
      tracksFresh (screenShareStep st).tracks (screenShareStep st).nextTrackId = true ∧
      sendersFresh pc2.senders (screenShareStep st).nextTrackId = true ∧
      (screenShareStep st).nextPcId = st.nextPcId ∧
      (screenShareStep st).graveyard = st.graveyard := by
  obtain ⟨h1, h2, h3, h4, h5⟩ := screenShareStep_spec st pc hcur hsn hcount
  have hvid : isVideoSender
      (st.tracks ++ [(st.nextTrackId, TrackInfo.mk TrackKind.video false)])
      (some st.nextTrackId) = true := by
    simp [isVideoSender, kindOf_append_self _ _ _ htr]
  refine ⟨_, h1, rfl, replaceFirstVideo_length _ _ _, ?_, ?_, ?_, h4, h5⟩
  · rw [h2, countVideo_replaceFirstVideo _ _ _ hvid,
      countVideo_append_fresh _ _ _ _ hsn, hcount]
  · rw [h2, h3]
    exact tracksFresh_append_fresh _ _ _ htr
  · rw [h3]
    exact sendersFresh_replaceFirstVideo _ _ _ _
      (sendersFresh_mono _ _ _ (Nat.le_succ _) hsn) (Nat.lt_succ_self _)

/-- Claim C3: layering a video source onto a session that already has an
outbound video track replaces the track on the existing video sender in
place: the sender list keeps its length, there is still exactly one
outbound video sender, the connection is the same one (same id, nothing
constructed, nothing closed), repeating the operation changes none of
that, and the replaceVideoTrack helper succeeds without adding a
sender. -/
theorem c3_video_replace_idempotent (st : AppState) (pc : PC)
    (hcur : st.current = some pc)
    (htr : tracksFresh st.tracks st.nextTrackId = true)
    (hsn : sendersFresh pc.senders st.nextTrackId = true)
    (hcount : countVideoSenders st.tracks pc.senders = 1) :
    (currentSendersLen (screenShareStep st) = some pc.senders.length) ∧
    (currentVideoCount (screenShareStep st) = some 1) ∧
    (currentId (screenShareStep st) = some pc.id) ∧
    ((screenShareStep st).nextPcId = st.nextPcId) ∧
    ((screenShareStep st).graveyard = st.graveyard) ∧
    (currentSendersLen (screenShareStep (screenShareStep st))
        = some pc.senders.length) ∧
    (currentVideoCount (screenShareStep (screenShareStep st)) = some 1) ∧
    ((screenShareStep (screenShareStep st)).nextPcId = st.nextPcId) ∧
    ((screenShareStep (screenShareStep st)).graveyard = st.graveyard) ∧
    ((replaceVideoTrack st.tracks pc st.nextTrackId).2 = true) ∧
    ((replaceVideoTrack st.tracks pc st.nextTrackId).1.senders.length
        = pc.senders.length) := by
  obtain ⟨pc2, hc2, hid2, hlen2, hcnt2, htr2, hsn2, hnp2, hgr2⟩ :=
    screenShare_full_spec st pc hcur htr hsn hcount
  obtain ⟨pc3, hc3, hid3, hlen3, hcnt3, htr3, hsn3, hnp3, hgr3⟩ :=
    screenShare_full_spec (screenShareStep st) pc2 hc2 htr2 hsn2 hcnt2
  have hany0 : pc.senders.any (isVideoSender st.tracks) = true := by
    apply any_of_countVideo_pos
    rw [hcount]
    exact Nat.one_pos
  refine ⟨?_, ?_, ?_, hnp2, hgr2, ?_, ?_, ?_, ?_, ?_, ?_⟩
  · simp [currentSendersLen, hc2, hlen2]
  · simp [currentVideoCount, hc2, hcnt2]
  · simp [currentId, hc2, hid2]
  · simp [currentSendersLen, hc3, hlen3, hlen2]
  · simp [currentVideoCount, hc3, hcnt3]
  · rw [hnp3, hnp2]
  · rw [hgr3, hgr2]
  · simp [replaceVideoTrack, hany0]
  · simp [replaceVideoTrack, hany0, replaceFirstVideo_length]

theorem c3_video_replace_idempotent_witness :
    (currentSendersLen (screenShareStep (runC [CEvent.initiate, CEvent.mediaResolved])) = some 2) ∧
    (currentVideoCount (screenShareStep (runC [CEvent.initiate, CEvent.mediaResolved])) = some 1) ∧
    (currentVideoCount (screenShareStep (screenShareStep (runC [CEvent.initiate, CEvent.mediaResolved])))
        = some 1) ∧
    ((screenShareStep (screenShareStep (runC [CEvent.initiate, CEvent.mediaResolved]))).nextPcId = 1) := by
  have h := c3_video_replace_idempotent (runC [CEvent.initiate, CEvent.mediaResolved])
    ⟨0, [some 0, some 1], true, false, [], false⟩ (by decide) (by decide) (by decide)
    (by decide)
  exact ⟨h.1, h.2.1, h.2.2.2.2.2.2.1, h.2.2.2.2.2.2.2.1⟩

lemma stopTracks_mem (tracks : List (Nat × TrackInfo)) (ids : List Nat) :
    ∀ p ∈ stopTracks tracks ids,
      (p.1 ∈ ids → p.2.stopped = true) ∧ (p.1 ∉ ids → p ∈ tracks) := by
  intro p hp
  unfold stopTracks at hp
  rcases List.mem_map.mp hp with ⟨q, hq, hqe⟩
  by_cases hqid : q.1 ∈ ids
  · rw [if_pos hqid] at hqe
    constructor
    · intro _
      rw [← hqe]
    · intro hnot
      exfalso
      apply hnot
      rw [← hqe]
      exact hqid
  · rw [if_neg hqid] at hqe
    rw [← hqe]
    exact ⟨fun hin => absurd hin hqid, fun _ => hq⟩

lemma openPCs_zero_of (st : AppState) (hgr : ∀ pc ∈ st.graveyard, pc.closed = true)
    (hcur : st.current = none) : openPCs st = 0 := by
  unfold openPCs
  rw [hcur]
  have hfil : st.graveyard.filter (fun pc => !pc.closed) = [] := by
    rw [List.filter_eq_nil_iff]
    intro pc hpc
    simp [hgr pc hpc]
  rw [hfil]
  rfl

/-- Claim C9 (counterexample): with a screen share layered onto the call,
leaveRoom stops the camera and microphone tracks but not the screen
capture track (id 2), which stays live after the leave completes — a
dangling capture device. -/
theorem c9_counterexample :
    (allCaptureStopped
        (runC [CEvent.initiate, CEvent.mediaResolved, CEvent.screenShareEv, CEvent.leaveRoomEv]) = false) ∧
    (((runC [CEvent.initiate, CEvent.mediaResolved, CEvent.screenShareEv, CEvent.leaveRoomEv]).tracks.find?
        (fun p => p.1 = 2)).map (fun p => p.2.stopped) = some false) := by
  constructor
  · decide
  · decide

/-- Claim C9 (amended): after leave-room / end-call, synchronously, every
track of the coordinator camera-microphone stream is stopped and the
stream reference cleared, the data channel is closed, and the currently
referenced peer connection is closed and the ref nulled. Not released by
the leave: the screen and canvas capture streams of the streaming
component are left untouched (their tracks stay live), and a connection
that was earlier overwritten without close by the initiateCall media
race stays open — so no connection is left open only on race-free
executions. -/
theorem c9_local_release_on_leave (es : List CEvent) :
    (∀ p ∈ (leaveRoomStep (runC es)).tracks,
       (p.1 ∈ (runC es).localStream.getD [] → p.2.stopped = true) ∧
       (p.1 ∉ (runC es).localStream.getD [] → p ∈ (runC es).tracks)) ∧
    ((leaveRoomStep (runC es)).localStream = none) ∧
    ((leaveRoomStep (runC es)).current = none) ∧
    ((leaveRoomStep (runC es)).dataChannel = false) ∧
    (∀ pc : PC, (runC es).current = some pc →
       { pc with closed := true } ∈ (leaveRoomStep (runC es)).graveyard) ∧
    ((runC es).raced = false → openPCs (leaveRoomStep (runC es)) = 0) ∧
    ((leaveRoomStep (runC es)).screenStream = (runC es).screenStream) ∧
    ((leaveRoomStep (runC es)).canvasStream = (runC es).canvasStream) := by
  have hg := graveClosed_runC es
  revert hg
  generalize runC es = st
  intro hg
  obtain ⟨tr, nt, ls, ss, cs, cur, gr, np, dc, ip, rc⟩ := st
  cases ls with
  | none =>
    cases cur with
    | none =>
      refine ⟨?_, rfl, rfl, rfl, ?_, ?_, rfl, rfl⟩
      · intro p hp
        constructor
        · intro hmem
          simp at hmem
        · intro _
          exact hp
      · intro pc hpc
        simp at hpc
      · intro hr
        exact openPCs_zero_of _ (hg hr) rfl
    | some pc0 =>
      refine ⟨?_, rfl, rfl, rfl, ?_, ?_, rfl, rfl⟩
      · intro p hp
        constructor
        · intro hmem
          simp at hmem
        · intro _
          exact hp
      · intro pc hpc
        cases hpc
        exact List.mem_cons_self _ _
      · intro hr
        have hgr2 : ∀ q ∈ ({ pc0 with closed := true } :: gr), q.closed = true := by
          intro q hq
          rcases List.mem_cons.mp hq with h1 | h2
          · rw [h1]
          · exact hg hr q h2
        exact openPCs_zero_of _ hgr2 rfl
  | some ids =>
    cases cur with
    | none =>
      refine ⟨?_, rfl, rfl, rfl, ?_, ?_, rfl, rfl⟩
      · intro p hp
        exact stopTracks_mem tr ids p hp
      · intro pc hpc
        simp at hpc
      · intro hr
        exact openPCs_zero_of _ (hg hr) rfl
    | some pc0 =>
      refine ⟨?_, rfl, rfl, rfl, ?_, ?_, rfl, rfl⟩
      · intro p hp
        exact stopTracks_mem tr ids p hp
      · intro pc hpc
        cases hpc
        exact List.mem_cons_self _ _
      · intro hr
        have hgr2 : ∀ q ∈ ({ pc0 with closed := true } :: gr), q.closed = true := by
          intro q hq
          rcases List.mem_cons.mp hq with h1 | h2
          · rw [h1]
          · exact hg hr q h2
        exact openPCs_zero_of _ hgr2 rfl

theorem c9_local_release_on_leave_witness :
    ((0, TrackInfo.mk TrackKind.audio true).2.stopped = true) ∧
    ((leaveRoomStep (runC [CEvent.startCallEv])).localStream = none) ∧
    (openPCs (leaveRoomStep (runC [CEvent.startCallEv])) = 0) := by
  have h := c9_local_release_on_leave [CEvent.startCallEv]
  refine ⟨?_, h.2.1, h.2.2.2.2.2.1 (by decide)⟩
  exact (h.1 (0, TrackInfo.mk TrackKind.audio true) (by decide)).1 (by decide)

end WebRTCProof
